import Mathlib

/-!
Shallow embedding of `SageMakerProcessingOperator`
(src/airflow/providers/amazon/aws/operators/sagemaker_processing.py).

Python dictionaries are modelled as association lists of string keys and
`JValue` values; the operator's remote collaborators (the SageMaker hook)
are modelled as a record of functions, and `execute` additionally returns
the trace of collaborator calls it issues, so that ordering and call-count
properties can be stated.
-/

set_option autoImplicit false

namespace SMP

/-- Values of a Python-style nested configuration dictionary: strings
(possibly templated), integers, and nested dictionaries. -/
inductive JValue : Type where
  | str : String → JValue
  | int : Int → JValue
  | obj : List (String × JValue) → JValue

/-- A Python dictionary with string keys, as an association list. -/
abbrev JObj := List (String × JValue)

/-- Dictionary lookup: `d[k]`, returning `none` where Python raises `KeyError`. -/
def lookupKey (k : String) : JObj → Option JValue
  | [] => none
  | (k', v) :: rest => if k' = k then some v else lookupKey k rest

/-- Python `k in d`. -/
def containsKey (k : String) (c : JObj) : Bool :=
  (lookupKey k c).isSome

/-- Python `d[k] = f(d[k])` when `k` is present; identity when it is absent.
Keys are unique in a Python dictionary, so only the first occurrence is
rewritten. -/
def updateKey (k : String) (f : JValue → JValue) : JObj → JObj
  | [] => []
  | (k', v) :: rest =>
      if k' = k then (k', f v) :: rest else (k', v) :: updateKey k f rest

/-- Rewrite the value at a nested key path inside a `JValue`, leaving the
value unchanged whenever the path is not present (no insertion, no error). -/
def applyAtPathV : List String → (JValue → JValue) → JValue → JValue
  | [], f, v => f v
  | k :: rest, f, v =>
      match v with
      | .obj m => .obj (updateKey k (applyAtPathV rest f) m)
      | v => v

/-- Rewrite the value at a nested key path of a dictionary, leaving the
dictionary unchanged whenever the path is not present. -/
def applyAtPath : List String → (JValue → JValue) → JObj → JObj
  | [], _, c => c
  | k :: rest, f, c => updateKey k (applyAtPathV rest f) c

/-- Lookup along a nested key path. -/
def lookupPath : List String → JValue → Option JValue
  | [], v => some v
  | k :: rest, .obj m =>
      match lookupKey k m with
      | some v => lookupPath rest v
      | none => none
  | _ :: _, _ => none

/-- Accumulating decimal parse of a digit run; fails on a non-digit. -/
def digitsToNat : List Char → Nat → Option Nat
  | [], acc => some acc
  | c :: rest, acc =>
      if c.isDigit then digitsToNat rest (acc * 10 + (c.toNat - 48)) else none

/-- Python `int()` applied to a string: an optional sign followed by a
non-empty digit run; anything else fails. -/
def pyInt (s : String) : Option Int :=
  match s.data with
  | [] => none
  | '-' :: [] => none
  | '-' :: c :: rest => (digitsToNat (c :: rest) 0).map (fun n => -(n : Int))
  | l => (digitsToNat l 0).map (fun n => (n : Int))

/-- Modelled from the spec: the integer-cast applied by the ConfigNormalizer
(`SageMakerBaseOperator.parse_config` is not under src/). Per the spec, a
value at a declared integer-field path is replaced by its integer-cast
equivalent: integers stay as they are, numeric strings are parsed; the spec
does not describe non-numeric strings, which are left untouched here. -/
def castToInt : JValue → JValue
  | .int n => .int n
  | .str s =>
      match pyInt s with
      | some n => .int n
      | none => .str s
  | .obj m => .obj m

/-- Modelled from the spec: the IdentityResolver collaborator
(`AwsBaseHook.expand_role` is not under src/). It resolves a short role
reference to a fully-qualified identifier and leaves an already
fully-qualified reference (one containing a path separator) unchanged. -/
def expand_identity (r : String) : String :=
  if '/' ∈ r.data then r else "arn:aws:iam::123456789012:role/" ++ r

/-- Application of the identity resolver to a stored config value: string
values are expanded, anything else is left to the resolver's caller. -/
def roleCast : JValue → JValue
  | .str s => .str (expand_identity s)
  | v => v

/-- Source lines 89-92: if the config has a `RoleArn` key, replace its value
with the identity resolver's expansion of it. -/
def expand_role (config : JObj) : JObj :=
  if containsKey "RoleArn" config then updateKey "RoleArn" roleCast config
  else config

/-- Modelled from the spec: `SageMakerBaseOperator.preprocess_config` is not
under src/. Per the spec's ConfigNormalizer contract, it coerces each
declared integer-field path that is present in the spec to an integer and
resolves the `RoleArn` reference (the latter via `expand_role`, which is
under src/). -/
def preprocess_config (fields : List (List String)) (config : JObj) : JObj :=
  expand_role (fields.foldl (fun acc p => applyAtPath p castToInt acc) config)

/-- The two resource-cluster integer-field paths (source lines 82-85). -/
def instanceCountPath : List String :=
  ["ProcessingResources", "ClusterConfig", "InstanceCount"]

/-- Second resource-cluster path (source lines 82-85). -/
def volumeSizePath : List String :=
  ["ProcessingResources", "ClusterConfig", "VolumeSizeInGB"]

/-- The runtime-timeout path (source line 87). -/
def maxRuntimePath : List String :=
  ["StoppingCondition", "MaxRuntimeInSeconds"]

/-- Source lines 80-87: the stored integer-field list starts from the two
resource-cluster paths and gains the runtime-timeout path exactly when the
config has a top-level `StoppingCondition` key. -/
def _create_integer_fields (config : JObj) : List (List String) :=
  [instanceCountPath, volumeSizePath]
    ++ (if containsKey "StoppingCondition" config then [maxRuntimePath] else [])

/-- The operator's stored state after `__init__` (source lines 54-78). -/
structure SageMakerProcessingOperator where
  config : JObj
  aws_conn_id : String
  wait_for_completion : Bool
  print_log : Bool
  check_interval : Int
  max_ingestion_time : Option Int
  action_if_job_exists : String
  integer_fields : List (List String)

/-- Source lines 54-78: construction validates `action_if_job_exists` and, on
success, stores the arguments and the integer-field list. A raised
`AirflowException` is modelled as `Except.error` carrying the message. -/
def SageMakerProcessingOperator.init (config : JObj) (aws_conn_id : String)
    (wait_for_completion : Bool) (print_log : Bool) (check_interval : Int)
    (max_ingestion_time : Option Int) (action_if_job_exists : String) :
    Except String SageMakerProcessingOperator :=
  if action_if_job_exists = "increment" ∨ action_if_job_exists = "fail" then
    Except.ok
      ⟨config, aws_conn_id, wait_for_completion, print_log, check_interval,
        max_ingestion_time, action_if_job_exists, _create_integer_fields config⟩
  else
    Except.error
      ("Argument action_if_job_exists accepts only \x27increment\x27 and \x27fail\x27. Provided value: \x27"
        ++ action_if_job_exists ++ "\x27.")

mutual

/-- Python `repr` of a value, as used when a value is interpolated into an
f-string inside a larger structure. -/
def pyRepr : JValue → String
  | .str s => "\x27" ++ s ++ "\x27"
  | .int n => toString n
  | .obj m => "\x7b" ++ pyReprEntries m ++ "\x7d"

/-- Python `repr` of the entries of a dictionary. -/
def pyReprEntries : List (String × JValue) → String
  | [] => ""
  | [(k, v)] => "\x27" ++ k ++ "\x27: " ++ pyRepr v
  | (k, v) :: e :: rest =>
      "\x27" ++ k ++ "\x27: " ++ pyRepr v ++ ", " ++ pyReprEntries (e :: rest)

end

/-- Python `str` of a value, as used by f-string interpolation. -/
def pyStr : JValue → String
  | .str s => s
  | v => pyRepr v

/-- The SageMaker hook collaborator, as the record of the three remote
operations `execute` calls (spec section 6, RemotePlatformClient). -/
structure SageMakerHook where
  find_processing_job_by_name : JValue → Bool
  create_processing_job : JObj → Bool → Int → Option Int → JValue
  describe_processing_job : JValue → JValue

/-- One observable step of `execute`: the normalization pass or a call to a
hook operation. -/
inductive Event : Type where
  | preprocess : Event
  | findJob : JValue → Event
  | createJob : JObj → Event
  | describeJob : JValue → Event

/-- Python `response[...][...] != 200` is false exactly on the integer 200. -/
def isStatus200 : JValue → Bool
  | .int n => n == 200
  | _ => false

/-- Source lines 94-113: `execute`, returning the trace of steps taken
together with the raised exception or the returned result. -/
def execute (op : SageMakerProcessingOperator) (hook : SageMakerHook) :
    List Event × Except String JObj :=
  let cfg := preprocess_config op.integer_fields op.config
  match lookupKey "ProcessingJobName" cfg with
  | none => ([Event.preprocess], Except.error "KeyError: \x27ProcessingJobName\x27")
  | some name =>
      if hook.find_processing_job_by_name name then
        ([Event.preprocess, Event.findJob name],
          Except.error
            ("A SageMaker processing job with name " ++ pyStr name
              ++ " already exists."))
      else
        let response :=
          hook.create_processing_job cfg op.wait_for_completion
            op.check_interval op.max_ingestion_time
        match lookupPath ["ResponseMetadata", "HTTPStatusCode"] response with
        | none =>
            ([Event.preprocess, Event.findJob name, Event.createJob cfg],
              Except.error "KeyError in response metadata")
        | some st =>
            if isStatus200 st then
              ([Event.preprocess, Event.findJob name, Event.createJob cfg,
                  Event.describeJob name],
                Except.ok [("Processing", hook.describe_processing_job name)])
            else
              ([Event.preprocess, Event.findJob name, Event.createJob cfg],
                Except.error
                  ("Sagemaker Processing Job creation failed: " ++ pyRepr response))

/-- Number of create-job calls in a trace. -/
def countCreate (tr : List Event) : Nat :=
  (tr.filter fun e => match e with | Event.createJob _ => true | _ => false).length

/-- Number of describe-job calls in a trace. -/
def countDescribe (tr : List Event) : Nat :=
  (tr.filter fun e => match e with | Event.describeJob _ => true | _ => false).length

/-- Concrete config from the spec's end-to-end example. -/
def cfgW : JObj :=
  [("ProcessingJobName", JValue.str "job-1"),
    ("ProcessingResources", JValue.obj
      [("ClusterConfig", JValue.obj
        [("InstanceCount", JValue.str "2"),
          ("VolumeSizeInGB", JValue.str "50")])])]

/-- Concrete config with no top-level `ProcessingJobName` key. -/
def cfgNoName : JObj :=
  [("RoleArn", JValue.str "my-role")]

/-- Hook whose platform reports that the job name is already taken. -/
def hookFound : SageMakerHook :=
  ⟨fun _ => true,
    fun _ _ _ _ =>
      JValue.obj [("ResponseMetadata", JValue.obj [("HTTPStatusCode", JValue.int 200)])],
    fun _ => JValue.obj []⟩

/-- Hook whose platform accepts the submission with status 200. -/
def hookOk : SageMakerHook :=
  ⟨fun _ => false,
    fun _ _ _ _ =>
      JValue.obj [("ResponseMetadata", JValue.obj [("HTTPStatusCode", JValue.int 200)])],
    fun _ => JValue.obj [("ProcessingJobStatus", JValue.str "Completed")]⟩

/-- Hook whose platform rejects the submission with status 500. -/
def hookBad : SageMakerHook :=
  ⟨fun _ => false,
    fun _ _ _ _ =>
      JValue.obj [("ResponseMetadata", JValue.obj [("HTTPStatusCode", JValue.int 500)])],
    fun _ => JValue.obj []⟩

/-- Operator built over `cfgW` with the `fail` policy. -/
def opFail : SageMakerProcessingOperator :=
  ⟨cfgW, "aws_default", true, true, 30, none, "fail", _create_integer_fields cfgW⟩

/-- Operator built over `cfgW` with the `increment` policy. -/
def opIncrement : SageMakerProcessingOperator :=
  ⟨cfgW, "aws_default", true, true, 30, none, "increment", _create_integer_fields cfgW⟩

/-- Operator built over `cfgW` with wait-for-completion disabled. -/
def opNoWait : SageMakerProcessingOperator :=
  ⟨cfgW, "aws_default", false, true, 30, none, "increment", _create_integer_fields cfgW⟩

/-- Operator whose config lacks the `ProcessingJobName` key. -/
def opNoName : SageMakerProcessingOperator :=
  ⟨cfgNoName, "aws_default", true, true, 30, none, "increment",
    _create_integer_fields cfgNoName⟩

/-- Concrete config with a top-level `StoppingCondition` section. -/
def cfgSC : JObj :=
  [("ProcessingJobName", JValue.str "job-2"),
    ("StoppingCondition", JValue.obj [("MaxRuntimeInSeconds", JValue.str "3600")])]

/-- Updating at the same key twice is updating by the composite. -/
theorem updateKey_comp (k : String) (f g : JValue → JValue) (m : JObj) :
    updateKey k f (updateKey k g m) = updateKey k (fun v => f (g v)) m := by
  induction m with
  | nil => rfl
  | cons e rest ih =>
      obtain ⟨k', v⟩ := e
      by_cases h : k' = k
      · simp [updateKey, h]
      · simp [updateKey, h, ih]

/-- Updates at distinct keys commute. -/
theorem updateKey_comm (k1 k2 : String) (f g : JValue → JValue) (m : JObj)
    (hne : k1 ≠ k2) :
    updateKey k1 f (updateKey k2 g m) = updateKey k2 g (updateKey k1 f m) := by
  induction m with
  | nil => rfl
  | cons e rest ih =>
      obtain ⟨k', v⟩ := e
      by_cases h1 : k' = k1
      · subst h1
        simp [updateKey, hne, Ne.symm hne]
      · by_cases h2 : k' = k2
        · subst h2
          simp [updateKey, h1, hne, Ne.symm hne]
        · simp [updateKey, h1, h2, ih]

/-- Updating a value never changes which keys are present. -/
theorem lookupKey_updateKey_isSome (k k' : String) (f : JValue → JValue) (m : JObj) :
    (lookupKey k (updateKey k' f m)).isSome = (lookupKey k m).isSome := by
  induction m with
  | nil => rfl
  | cons e rest ih =>
      obtain ⟨k'', v⟩ := e
      by_cases h1 : k'' = k'
      · subst h1
        by_cases h2 : k'' = k
        · subst h2
          simp [updateKey, lookupKey]
        · simp [updateKey, lookupKey, h2, ih]
      · by_cases h2 : k'' = k
        · subst h2
          simp [updateKey, lookupKey, h1]
        · simp [updateKey, lookupKey, h1, h2, ih]

/-- Key membership is invariant under `updateKey`. -/
theorem containsKey_updateKey (k k' : String) (f : JValue → JValue) (m : JObj) :
    containsKey k (updateKey k' f m) = containsKey k m := by
  simp [containsKey, lookupKey_updateKey_isSome]

/-- Lookup at a key different from the updated one is unchanged. -/
theorem lookupKey_updateKey_ne (k k' : String) (f : JValue → JValue) (m : JObj)
    (hne : k ≠ k') :
    lookupKey k (updateKey k' f m) = lookupKey k m := by
  induction m with
  | nil => rfl
  | cons e rest ih =>
      obtain ⟨k'', v⟩ := e
      by_cases h1 : k'' = k'
      · subst h1
        have h2 : ¬ k'' = k := fun hc => hne hc.symm
        simp [updateKey, lookupKey, h2]
      · by_cases h2 : k'' = k
        · subst h2
          simp [updateKey, lookupKey, h1, Ne.symm h1]
        · simp [updateKey, lookupKey, h1, h2, ih]

/-- Rewriting twice along one path is rewriting by the composite. -/
theorem applyAtPathV_comp (p : List String) (f g : JValue → JValue) (v : JValue) :
    applyAtPathV p f (applyAtPathV p g v) = applyAtPathV p (fun x => f (g x)) v := by
  induction p generalizing v with
  | nil => rfl
  | cons k rest ih =>
      cases v with
      | obj m =>
          simp only [applyAtPathV]
          rw [updateKey_comp]
          have hfun : (fun x => applyAtPathV rest f (applyAtPathV rest g x))
              = applyAtPathV rest (fun x => f (g x)) := funext fun x => ih x
          rw [hfun]
      | str s => rfl
      | int n => rfl

/-- Dictionary-level version of `applyAtPathV_comp`. -/
theorem applyAtPath_comp (p : List String) (f g : JValue → JValue) (c : JObj) :
    applyAtPath p f (applyAtPath p g c) = applyAtPath p (fun x => f (g x)) c := by
  cases p with
  | nil => rfl
  | cons k rest =>
      simp only [applyAtPath]
      rw [updateKey_comp]
      have hfun : (fun x => applyAtPathV rest f (applyAtPathV rest g x))
          = applyAtPathV rest (fun x => f (g x)) := funext fun x => applyAtPathV_comp rest f g x
      rw [hfun]

/-- Rewriting along one path with an idempotent cast is idempotent. -/
theorem applyAtPath_idem (p : List String) (f : JValue → JValue) (c : JObj)
    (hf : ∀ v, f (f v) = f v) :
    applyAtPath p f (applyAtPath p f c) = applyAtPath p f c := by
  rw [applyAtPath_comp]
  have hfun : (fun x => f (f x)) = f := funext hf
  rw [hfun]

/-- Value-level rewrites along paths with distinct head keys commute. -/
theorem applyAtPathV_comm_ne (k1 k2 : String) (p1 p2 : List String)
    (f g : JValue → JValue) (v : JValue) (hne : k1 ≠ k2) :
    applyAtPathV (k1 :: p1) f (applyAtPathV (k2 :: p2) g v)
      = applyAtPathV (k2 :: p2) g (applyAtPathV (k1 :: p1) f v) := by
  cases v with
  | obj m =>
      simp only [applyAtPathV]
      rw [updateKey_comm _ _ _ _ _ hne]
  | str s => rfl
  | int n => rfl

/-- Value-level rewrites along paths sharing a head commute when the tails do. -/
theorem applyAtPathV_comm_cons (k : String) (p1 p2 : List String)
    (f g : JValue → JValue) (v : JValue)
    (hcomm : ∀ w, applyAtPathV p1 f (applyAtPathV p2 g w)
      = applyAtPathV p2 g (applyAtPathV p1 f w)) :
    applyAtPathV (k :: p1) f (applyAtPathV (k :: p2) g v)
      = applyAtPathV (k :: p2) g (applyAtPathV (k :: p1) f v) := by
  cases v with
  | obj m =>
      simp only [applyAtPathV]
      rw [updateKey_comp, updateKey_comp]
      have hfun : (fun x => applyAtPathV p1 f (applyAtPathV p2 g x))
          = (fun x => applyAtPathV p2 g (applyAtPathV p1 f x)) := funext fun x => hcomm x
      rw [hfun]
  | str s => rfl
  | int n => rfl

/-- Dictionary-level rewrites along paths with distinct head keys commute. -/
theorem applyAtPath_comm_ne (k1 k2 : String) (p1 p2 : List String)
    (f g : JValue → JValue) (c : JObj) (hne : k1 ≠ k2) :
    applyAtPath (k1 :: p1) f (applyAtPath (k2 :: p2) g c)
      = applyAtPath (k2 :: p2) g (applyAtPath (k1 :: p1) f c) := by
  simp only [applyAtPath]
  exact updateKey_comm _ _ _ _ _ hne

/-- Dictionary-level rewrites along paths sharing a head commute when the tails do. -/
theorem applyAtPath_comm_cons (k : String) (p1 p2 : List String)
    (f g : JValue → JValue) (c : JObj)
    (hcomm : ∀ w, applyAtPathV p1 f (applyAtPathV p2 g w)
      = applyAtPathV p2 g (applyAtPathV p1 f w)) :
    applyAtPath (k :: p1) f (applyAtPath (k :: p2) g c)
      = applyAtPath (k :: p2) g (applyAtPath (k :: p1) f c) := by
  simp only [applyAtPath]
  rw [updateKey_comp, updateKey_comp]
  have hfun : (fun x => applyAtPathV p1 f (applyAtPathV p2 g x))
      = (fun x => applyAtPathV p2 g (applyAtPathV p1 f x)) := funext fun x => hcomm x
  rw [hfun]

/-- Casting to integer twice equals casting once. -/
theorem castToInt_idem (v : JValue) : castToInt (castToInt v) = castToInt v := by
  cases v with
  | int n => rfl
  | obj m => rfl
  | str s =>
      cases h : pyInt s with
      | some n => simp [castToInt, h]
      | none => simp [castToInt, h]

/-- Expanding an identity reference twice equals expanding it once. -/
theorem expand_identity_idem (r : String) :
    expand_identity (expand_identity r) = expand_identity r := by
  by_cases h : ('/' : Char) ∈ r.data
  · simp [expand_identity, h]
  · have h2 : ('/' : Char) ∈ ("arn:aws:iam::123456789012:role/" ++ r).data := by
      rw [String.data_append]
      exact List.mem_append.mpr (Or.inl (by decide))
    simp [expand_identity, h, h2]

/-- Role-value expansion is idempotent. -/
theorem roleCast_idem (v : JValue) : roleCast (roleCast v) = roleCast v := by
  cases v with
  | str s => simp [roleCast, expand_identity_idem]
  | int n => rfl
  | obj m => rfl

/-- Role expansion of a config is idempotent. -/
theorem expand_role_idem (c : JObj) : expand_role (expand_role c) = expand_role c := by
  by_cases h : containsKey "RoleArn" c = true
  · have h2 : containsKey "RoleArn" (updateKey "RoleArn" roleCast c) = true := by
      rw [containsKey_updateKey]; exact h
    simp only [expand_role, h, h2, if_true]
    rw [updateKey_comp]
    have hfun : (fun v => roleCast (roleCast v)) = roleCast := funext roleCast_idem
    rw [hfun]
  · simp [expand_role, h]

/-- Role expansion commutes with a path rewrite that starts at another key. -/
theorem expand_role_applyAtPath_comm (k : String) (p : List String)
    (f : JValue → JValue) (c : JObj) (hne : k ≠ "RoleArn") :
    expand_role (applyAtPath (k :: p) f c)
      = applyAtPath (k :: p) f (expand_role c) := by
  simp only [applyAtPath]
  by_cases h : containsKey "RoleArn" c = true
  · have h2 : containsKey "RoleArn" (updateKey k (applyAtPathV p f) c) = true := by
      rw [containsKey_updateKey]; exact h
    simp only [expand_role, h, h2, if_true]
    exact updateKey_comm _ _ _ _ _ (fun hc => hne hc.symm)
  · have h2 : containsKey "RoleArn" (updateKey k (applyAtPathV p f) c) = false := by
      rw [containsKey_updateKey]; exact Bool.not_eq_true _ ▸ eq_false_of_ne_true h
    simp [expand_role, h, h2]

/-- Integer coercion at the instance-count path is idempotent. -/
theorem coerce_instanceCount_idem (c : JObj) :
    applyAtPath instanceCountPath castToInt (applyAtPath instanceCountPath castToInt c)
      = applyAtPath instanceCountPath castToInt c :=
  applyAtPath_idem _ _ c castToInt_idem

/-- Integer coercion at the volume-size path is idempotent. -/
theorem coerce_volumeSize_idem (c : JObj) :
    applyAtPath volumeSizePath castToInt (applyAtPath volumeSizePath castToInt c)
      = applyAtPath volumeSizePath castToInt c :=
  applyAtPath_idem _ _ c castToInt_idem

/-- Integer coercion at the runtime-timeout path is idempotent. -/
theorem coerce_maxRuntime_idem (c : JObj) :
    applyAtPath maxRuntimePath castToInt (applyAtPath maxRuntimePath castToInt c)
      = applyAtPath maxRuntimePath castToInt c :=
  applyAtPath_idem _ _ c castToInt_idem

/-- Coercions at the two resource-cluster paths commute. -/
theorem coerce_comm_instance_volume (c : JObj) :
    applyAtPath instanceCountPath castToInt (applyAtPath volumeSizePath castToInt c)
      = applyAtPath volumeSizePath castToInt (applyAtPath instanceCountPath castToInt c) := by
  simp only [instanceCountPath, volumeSizePath]
  apply applyAtPath_comm_cons
  intro w
  apply applyAtPathV_comm_cons
  intro w2
  exact applyAtPathV_comm_ne _ _ _ _ _ _ w2 (by decide)

/-- Coercion at the instance-count path commutes with the runtime-timeout one. -/
theorem coerce_comm_instance_runtime (c : JObj) :
    applyAtPath instanceCountPath castToInt (applyAtPath maxRuntimePath castToInt c)
      = applyAtPath maxRuntimePath castToInt (applyAtPath instanceCountPath castToInt c) := by
  simp only [instanceCountPath, maxRuntimePath]
  exact applyAtPath_comm_ne _ _ _ _ _ _ c (by decide)

/-- Coercion at the volume-size path commutes with the runtime-timeout one. -/
theorem coerce_comm_volume_runtime (c : JObj) :
    applyAtPath volumeSizePath castToInt (applyAtPath maxRuntimePath castToInt c)
      = applyAtPath maxRuntimePath castToInt (applyAtPath volumeSizePath castToInt c) := by
  simp only [volumeSizePath, maxRuntimePath]
  exact applyAtPath_comm_ne _ _ _ _ _ _ c (by decide)

/-- Role expansion commutes with coercion at the instance-count path. -/
theorem expand_role_comm_instanceCount (c : JObj) :
    expand_role (applyAtPath instanceCountPath castToInt c)
      = applyAtPath instanceCountPath castToInt (expand_role c) := by
  simp only [instanceCountPath]
  exact expand_role_applyAtPath_comm _ _ _ c (by decide)

/-- Role expansion commutes with coercion at the volume-size path. -/
theorem expand_role_comm_volumeSize (c : JObj) :
    expand_role (applyAtPath volumeSizePath castToInt c)
      = applyAtPath volumeSizePath castToInt (expand_role c) := by
  simp only [volumeSizePath]
  exact expand_role_applyAtPath_comm _ _ _ c (by decide)

/-- Role expansion commutes with coercion at the runtime-timeout path. -/
theorem expand_role_comm_maxRuntime (c : JObj) :
    expand_role (applyAtPath maxRuntimePath castToInt c)
      = applyAtPath maxRuntimePath castToInt (expand_role c) := by
  simp only [maxRuntimePath]
  exact expand_role_applyAtPath_comm _ _ _ c (by decide)

/-- Normalization with the operator's stored integer-field list is idempotent. -/
theorem preprocess_config_idem (c : JObj) :
    preprocess_config (_create_integer_fields c) (preprocess_config (_create_integer_fields c) c)
      = preprocess_config (_create_integer_fields c) c := by
  by_cases h : containsKey "StoppingCondition" c = true
  · have hf : _create_integer_fields c
        = [instanceCountPath, volumeSizePath, maxRuntimePath] := by
      simp [_create_integer_fields, h]
    rw [hf]
    simp only [preprocess_config, List.foldl_cons, List.foldl_nil]
    rw [← expand_role_comm_instanceCount, ← expand_role_comm_volumeSize,
      ← expand_role_comm_maxRuntime, expand_role_idem,
      coerce_comm_instance_runtime, coerce_comm_volume_runtime, coerce_maxRuntime_idem,
      coerce_comm_instance_volume, coerce_instanceCount_idem, coerce_volumeSize_idem]
  · have hf : _create_integer_fields c = [instanceCountPath, volumeSizePath] := by
      simp [_create_integer_fields, h]
    rw [hf]
    simp only [preprocess_config, List.foldl_cons, List.foldl_nil]
    rw [← expand_role_comm_instanceCount, ← expand_role_comm_volumeSize,
      expand_role_idem,
      coerce_comm_instance_volume, coerce_instanceCount_idem, coerce_volumeSize_idem]

/-- Lookup at a key other than a path's head is unchanged by the path rewrite. -/
theorem lookupKey_applyAtPath_ne (k k1 : String) (p : List String)
    (f : JValue → JValue) (c : JObj) (hne : k ≠ k1) :
    lookupKey k (applyAtPath (k1 :: p) f c) = lookupKey k c := by
  simp only [applyAtPath]
  exact lookupKey_updateKey_ne _ _ _ _ hne

/-- Lookup at a key other than `RoleArn` is unchanged by role expansion. -/
theorem lookupKey_expand_role_ne (k : String) (c : JObj) (hne : k ≠ "RoleArn") :
    lookupKey k (expand_role c) = lookupKey k c := by
  unfold expand_role
  by_cases h : containsKey "RoleArn" c = true
  · rw [if_pos h]
    exact lookupKey_updateKey_ne _ _ _ _ hne
  · rw [if_neg h]

/-- Normalization never touches the stored job name. -/
theorem lookup_name_preprocess (c : JObj) :
    lookupKey "ProcessingJobName" (preprocess_config (_create_integer_fields c) c)
      = lookupKey "ProcessingJobName" c := by
  by_cases h : containsKey "StoppingCondition" c = true
  · have hf : _create_integer_fields c
        = [instanceCountPath, volumeSizePath, maxRuntimePath] := by
      simp [_create_integer_fields, h]
    rw [hf]
    simp only [preprocess_config, List.foldl_cons, List.foldl_nil]
    rw [lookupKey_expand_role_ne _ _ (by decide)]
    simp only [instanceCountPath, volumeSizePath, maxRuntimePath]
    rw [lookupKey_applyAtPath_ne _ _ _ _ _ (by decide),
      lookupKey_applyAtPath_ne _ _ _ _ _ (by decide),
      lookupKey_applyAtPath_ne _ _ _ _ _ (by decide)]
  · have hf : _create_integer_fields c = [instanceCountPath, volumeSizePath] := by
      simp [_create_integer_fields, h]
    rw [hf]
    simp only [preprocess_config, List.foldl_cons, List.foldl_nil]
    rw [lookupKey_expand_role_ne _ _ (by decide)]
    simp only [instanceCountPath, volumeSizePath]
    rw [lookupKey_applyAtPath_ne _ _ _ _ _ (by decide),
      lookupKey_applyAtPath_ne _ _ _ _ _ (by decide)]

/-- Every execution trace is one of four shapes, in call order. -/
theorem execute_trace_cases (op : SageMakerProcessingOperator) (hook : SageMakerHook) :
    (execute op hook).1 = [Event.preprocess]
    ∨ (∃ nm, (execute op hook).1 = [Event.preprocess, Event.findJob nm])
    ∨ (∃ nm, (execute op hook).1
        = [Event.preprocess, Event.findJob nm,
            Event.createJob (preprocess_config op.integer_fields op.config)])
    ∨ (∃ nm, (execute op hook).1
        = [Event.preprocess, Event.findJob nm,
            Event.createJob (preprocess_config op.integer_fields op.config),
            Event.describeJob nm]) := by
  cases hl : lookupKey "ProcessingJobName" (preprocess_config op.integer_fields op.config) with
  | none => exact Or.inl (by simp [execute, hl])
  | some nm =>
      cases hf : hook.find_processing_job_by_name nm with
      | true => exact Or.inr (Or.inl ⟨nm, by simp [execute, hl, hf]⟩)
      | false =>
          cases hp : lookupPath ["ResponseMetadata", "HTTPStatusCode"]
              (hook.create_processing_job (preprocess_config op.integer_fields op.config)
                op.wait_for_completion op.check_interval op.max_ingestion_time) with
          | none => exact Or.inr (Or.inr (Or.inl ⟨nm, by simp [execute, hl, hf, hp]⟩))
          | some st =>
              cases hs : isStatus200 st with
              | true => exact Or.inr (Or.inr (Or.inr ⟨nm, by simp [execute, hl, hf, hp, hs]⟩))
              | false => exact Or.inr (Or.inr (Or.inl ⟨nm, by simp [execute, hl, hf, hp, hs]⟩))

/-- C4: for every config, the stored integer-field list contains the two
resource-cluster paths; it contains the runtime-timeout path exactly when the
config has a top-level StoppingCondition key (the last conjunct rules the
path out of the base list), and for configs lacking that key the list is
exactly the two resource-cluster paths. -/
theorem C4_integer_fields_contents (c : JObj) :
    instanceCountPath ∈ _create_integer_fields c
    ∧ volumeSizePath ∈ _create_integer_fields c
    ∧ (containsKey "StoppingCondition" c = true
        → maxRuntimePath ∈ _create_integer_fields c)
    ∧ (containsKey "StoppingCondition" c = false
        → _create_integer_fields c = [instanceCountPath, volumeSizePath])
    ∧ maxRuntimePath ∉ [instanceCountPath, volumeSizePath] := by
  by_cases h : containsKey "StoppingCondition" c = true
  · have hf : _create_integer_fields c
        = [instanceCountPath, volumeSizePath, maxRuntimePath] := by
      simp [_create_integer_fields, h]
    rw [hf]
    exact ⟨by simp, by simp, fun _ => by simp,
      fun hc => absurd h (by simp [hc]), by decide⟩
  · have hf : _create_integer_fields c = [instanceCountPath, volumeSizePath] := by
      simp [_create_integer_fields, h]
    rw [hf]
    exact ⟨by simp, by simp, fun hc => absurd hc h, fun _ => rfl, by decide⟩

/-- C4 witness: evaluated on the example config without a StoppingCondition
section and on a config with one. -/
theorem C4_integer_fields_contents_witness :
    _create_integer_fields cfgW = [instanceCountPath, volumeSizePath]
    ∧ maxRuntimePath ∈ _create_integer_fields cfgSC :=
  ⟨(C4_integer_fields_contents cfgW).2.2.2.1 rfl,
    (C4_integer_fields_contents cfgSC).2.2.1 rfl⟩

/-- C5: normalization (integer-field coercion with the operator's stored
integer-field list, then RoleArn expansion) is idempotent: applying it twice
to any JobSpec yields the same JobSpec as applying it once. -/
theorem C5_normalization_idempotent (c : JObj) :
    preprocess_config (_create_integer_fields c)
        (preprocess_config (_create_integer_fields c) c)
      = preprocess_config (_create_integer_fields c) c :=
  preprocess_config_idem c

/-- C6: construction rejects any existence-policy value outside increment and
fail with a configuration error naming the offending value, before any
execution; values inside the set are accepted and stored. -/
theorem C6_policy_validation (config : JObj) (aws : String) (w p : Bool)
    (ci : Int) (mit : Option Int) (policy : String) :
    (policy ≠ "increment" ∧ policy ≠ "fail" →
      SageMakerProcessingOperator.init config aws w p ci mit policy
        = Except.error
            ("Argument action_if_job_exists accepts only \x27increment\x27 and \x27fail\x27. Provided value: \x27"
              ++ policy ++ "\x27.")
      ∧ ∃ pre post,
          SageMakerProcessingOperator.init config aws w p ci mit policy
            = Except.error (pre ++ policy ++ post))
    ∧ (policy = "increment" ∨ policy = "fail" →
      ∃ op, SageMakerProcessingOperator.init config aws w p ci mit policy = Except.ok op
        ∧ op.action_if_job_exists = policy ∧ op.config = config
        ∧ op.integer_fields = _create_integer_fields config) := by
  constructor
  · intro hbad
    have hcond : ¬ (policy = "increment" ∨ policy = "fail") := by
      rintro (h | h)
      · exact hbad.1 h
      · exact hbad.2 h
    constructor
    · simp [SageMakerProcessingOperator.init, hcond]
    · exact
        ⟨"Argument action_if_job_exists accepts only \x27increment\x27 and \x27fail\x27. Provided value: \x27",
          "\x27.", by simp [SageMakerProcessingOperator.init, hcond]⟩
  · intro hgood
    exact ⟨⟨config, aws, w, p, ci, mit, policy, _create_integer_fields config⟩,
      by simp [SageMakerProcessingOperator.init, hgood], rfl, rfl, rfl⟩

/-- C6 witness: rejection at the value delete, acceptance at fail. -/
theorem C6_policy_validation_witness :
    SageMakerProcessingOperator.init cfgW "aws_default" true true 30 none "delete"
      = Except.error
          ("Argument action_if_job_exists accepts only \x27increment\x27 and \x27fail\x27. Provided value: \x27"
            ++ "delete" ++ "\x27.")
    ∧ ∃ op, SageMakerProcessingOperator.init cfgW "aws_default" true true 30 none "fail"
        = Except.ok op ∧ op.action_if_job_exists = "fail" ∧ op.config = cfgW
        ∧ op.integer_fields = _create_integer_fields cfgW :=
  ⟨((C6_policy_validation cfgW "aws_default" true true 30 none "delete").1 (by decide)).1,
    (C6_policy_validation cfgW "aws_default" true true 30 none "fail").2 (Or.inr rfl)⟩

/-- C8: every execution normalizes first, then (at most) checks existence for
one name, then issues at most one create call, then at most one describe
call, in that order; in particular at most one create-job call per run. -/
theorem C8_operation_order (op : SageMakerProcessingOperator) (hook : SageMakerHook) :
    ((execute op hook).1 = [Event.preprocess]
      ∨ (∃ nm, (execute op hook).1 = [Event.preprocess, Event.findJob nm])
      ∨ (∃ nm, (execute op hook).1
          = [Event.preprocess, Event.findJob nm,
              Event.createJob (preprocess_config op.integer_fields op.config)])
      ∨ (∃ nm, (execute op hook).1
          = [Event.preprocess, Event.findJob nm,
              Event.createJob (preprocess_config op.integer_fields op.config),
              Event.describeJob nm]))
    ∧ countCreate (execute op hook).1 ≤ 1 := by
  refine ⟨execute_trace_cases op hook, ?_⟩
  rcases execute_trace_cases op hook with h | ⟨nm, h⟩ | ⟨nm, h⟩ | ⟨nm, h⟩ <;>
    rw [h] <;> simp [countCreate]

/-- C2: with policy fail and the platform reporting the configured name as
taken, execute raises the duplicate-job error and issues zero create calls. -/
theorem C2_fail_policy_blocks_submission (op : SageMakerProcessingOperator)
    (hook : SageMakerHook) (name : JValue)
    (hpol : op.action_if_job_exists = "fail")
    (hname : lookupKey "ProcessingJobName" (preprocess_config op.integer_fields op.config)
      = some name)
    (hfound : hook.find_processing_job_by_name name = true) :
    execute op hook
      = ([Event.preprocess, Event.findJob name],
          Except.error
            ("A SageMaker processing job with name " ++ pyStr name ++ " already exists."))
    ∧ countCreate (execute op hook).1 = 0 := by
  have hexe : execute op hook
      = ([Event.preprocess, Event.findJob name],
          Except.error
            ("A SageMaker processing job with name " ++ pyStr name ++ " already exists.")) := by
    simp [execute, hname, hfound]
  exact ⟨hexe, by rw [hexe]; rfl⟩

/-- C2 witness: the fail-policy operator against a platform that reports the
name as taken. -/
theorem C2_fail_policy_blocks_submission_witness :
    execute opFail hookFound
      = ([Event.preprocess, Event.findJob (JValue.str "job-1")],
          Except.error "A SageMaker processing job with name job-1 already exists.")
    ∧ countCreate (execute opFail hookFound).1 = 0 :=
  C2_fail_policy_blocks_submission opFail hookFound (JValue.str "job-1") rfl rfl rfl

/-- C3: a create-job response whose status code is not 200 makes execute
raise a submission error embedding the raw response, for any value of
wait-for-completion, and no result is returned. -/
theorem C3_non200_submission_error (op : SageMakerProcessingOperator)
    (hook : SageMakerHook) (name st : JValue)
    (hname : lookupKey "ProcessingJobName" (preprocess_config op.integer_fields op.config)
      = some name)
    (hnf : hook.find_processing_job_by_name name = false)
    (hst : lookupPath ["ResponseMetadata", "HTTPStatusCode"]
        (hook.create_processing_job (preprocess_config op.integer_fields op.config)
          op.wait_for_completion op.check_interval op.max_ingestion_time)
      = some st)
    (hbad : isStatus200 st = false) :
    execute op hook
      = ([Event.preprocess, Event.findJob name,
          Event.createJob (preprocess_config op.integer_fields op.config)],
          Except.error
            ("Sagemaker Processing Job creation failed: "
              ++ pyRepr (hook.create_processing_job (preprocess_config op.integer_fields op.config)
                  op.wait_for_completion op.check_interval op.max_ingestion_time)))
    ∧ (∃ pre post, (execute op hook).2
        = Except.error
            (pre
              ++ pyRepr (hook.create_processing_job (preprocess_config op.integer_fields op.config)
                  op.wait_for_completion op.check_interval op.max_ingestion_time)
              ++ post))
    ∧ ∀ r, (execute op hook).2 ≠ Except.ok r := by
  have hexe : execute op hook
      = ([Event.preprocess, Event.findJob name,
          Event.createJob (preprocess_config op.integer_fields op.config)],
          Except.error
            ("Sagemaker Processing Job creation failed: "
              ++ pyRepr (hook.create_processing_job (preprocess_config op.integer_fields op.config)
                  op.wait_for_completion op.check_interval op.max_ingestion_time))) := by
    simp [execute, hname, hnf, hst, hbad]
  refine ⟨hexe, ⟨"Sagemaker Processing Job creation failed: ", "", ?_⟩, ?_⟩
  · rw [hexe, String.append_empty]
  · intro r
    rw [hexe]
    intro hcontra
    exact Except.noConfusion hcontra

/-- C3 witness: a rejecting platform against the no-wait operator. -/
theorem C3_non200_submission_error_witness :
    execute opNoWait hookBad
      = ([Event.preprocess, Event.findJob (JValue.str "job-1"),
          Event.createJob (preprocess_config opNoWait.integer_fields opNoWait.config)],
          Except.error
            ("Sagemaker Processing Job creation failed: "
              ++ pyRepr (hookBad.create_processing_job
                  (preprocess_config opNoWait.integer_fields opNoWait.config)
                  opNoWait.wait_for_completion opNoWait.check_interval
                  opNoWait.max_ingestion_time)))
    ∧ (∃ pre post, (execute opNoWait hookBad).2
        = Except.error
            (pre
              ++ pyRepr (hookBad.create_processing_job
                  (preprocess_config opNoWait.integer_fields opNoWait.config)
                  opNoWait.wait_for_completion opNoWait.check_interval
                  opNoWait.max_ingestion_time)
              ++ post))
    ∧ ∀ r, (execute opNoWait hookBad).2 ≠ Except.ok r :=
  C3_non200_submission_error opNoWait hookBad (JValue.str "job-1") (JValue.int 500)
    rfl rfl rfl rfl

/-- C7: once past the guard, a 200 create response leads to exactly one
describe call — for either wait-for-completion value — and the result is the
full description wrapped under the single key Processing. -/
theorem C7_describe_wrapped_result (op : SageMakerProcessingOperator)
    (hook : SageMakerHook) (name st : JValue)
    (hname : lookupKey "ProcessingJobName" (preprocess_config op.integer_fields op.config)
      = some name)
    (hnf : hook.find_processing_job_by_name name = false)
    (hst : lookupPath ["ResponseMetadata", "HTTPStatusCode"]
        (hook.create_processing_job (preprocess_config op.integer_fields op.config)
          op.wait_for_completion op.check_interval op.max_ingestion_time)
      = some st)
    (hok : isStatus200 st = true) :
    execute op hook
      = ([Event.preprocess, Event.findJob name,
          Event.createJob (preprocess_config op.integer_fields op.config),
          Event.describeJob name],
          Except.ok [("Processing", hook.describe_processing_job name)])
    ∧ countDescribe (execute op hook).1 = 1 := by
  have hexe : execute op hook
      = ([Event.preprocess, Event.findJob name,
          Event.createJob (preprocess_config op.integer_fields op.config),
          Event.describeJob name],
          Except.ok [("Processing", hook.describe_processing_job name)]) := by
    simp [execute, hname, hnf, hst, hok]
  exact ⟨hexe, by rw [hexe]; rfl⟩

/-- C7 witness: the no-wait operator against an accepting platform; note the
coerced integers in the submitted config. -/
theorem C7_describe_wrapped_result_witness :
    execute opNoWait hookOk
      = ([Event.preprocess, Event.findJob (JValue.str "job-1"),
          Event.createJob
            [("ProcessingJobName", JValue.str "job-1"),
              ("ProcessingResources", JValue.obj
                [("ClusterConfig", JValue.obj
                  [("InstanceCount", JValue.int 2),
                    ("VolumeSizeInGB", JValue.int 50)])])],
          Event.describeJob (JValue.str "job-1")],
          Except.ok [("Processing", JValue.obj [("ProcessingJobStatus", JValue.str "Completed")])])
    ∧ countDescribe (execute opNoWait hookOk).1 = 1 :=
  C7_describe_wrapped_result opNoWait hookOk (JValue.str "job-1") (JValue.int 200)
    rfl rfl rfl rfl

/-- C9: whenever execute aborts because the configured name already exists,
the error message contains, verbatim, the string stored under the config's
ProcessingJobName key. -/
theorem C9_duplicate_error_names_job (op : SageMakerProcessingOperator)
    (hook : SageMakerHook) (s : String)
    (hfields : op.integer_fields = _create_integer_fields op.config)
    (hname : lookupKey "ProcessingJobName" op.config = some (JValue.str s))
    (hfound : hook.find_processing_job_by_name (JValue.str s) = true) :
    (execute op hook).2
      = Except.error ("A SageMaker processing job with name " ++ s ++ " already exists.")
    ∧ ∃ pre post, (execute op hook).2 = Except.error (pre ++ s ++ post) := by
  have hname' : lookupKey "ProcessingJobName" (preprocess_config op.integer_fields op.config)
      = some (JValue.str s) := by
    rw [hfields, lookup_name_preprocess]
    exact hname
  have hexe : (execute op hook).2
      = Except.error ("A SageMaker processing job with name " ++ s ++ " already exists.") := by
    simp [execute, hname', hfound, pyStr]
  exact ⟨hexe, ⟨"A SageMaker processing job with name ", " already exists.", hexe⟩⟩

/-- C9 witness: the job name job-1 appears verbatim in the abort message. -/
theorem C9_duplicate_error_names_job_witness :
    (execute opFail hookFound).2
      = Except.error ("A SageMaker processing job with name " ++ "job-1" ++ " already exists.")
    ∧ ∃ pre post, (execute opFail hookFound).2 = Except.error (pre ++ "job-1" ++ post) :=
  C9_duplicate_error_names_job opFail hookFound "job-1" rfl rfl rfl

/-- C10: for a config with no top-level ProcessingJobName key, execute fails
right after normalization with no remote call in the trace; when the key is
present the failure branch is not taken and the existence check is reached. -/
theorem C10_missing_name_fails_before_remote_calls (op : SageMakerProcessingOperator)
    (hook : SageMakerHook)
    (hfields : op.integer_fields = _create_integer_fields op.config) :
    (containsKey "ProcessingJobName" op.config = false →
      execute op hook = ([Event.preprocess], Except.error "KeyError: \x27ProcessingJobName\x27"))
    ∧ (containsKey "ProcessingJobName" op.config = true →
      ∃ nm tl, (execute op hook).1 = Event.preprocess :: Event.findJob nm :: tl) := by
  have hpres : lookupKey "ProcessingJobName" (preprocess_config op.integer_fields op.config)
      = lookupKey "ProcessingJobName" op.config := by
    rw [hfields, lookup_name_preprocess]
  constructor
  · intro habs
    have hnone : lookupKey "ProcessingJobName" (preprocess_config op.integer_fields op.config)
        = none := by
      rw [hpres]
      rcases hx : lookupKey "ProcessingJobName" op.config with _ | v
      · rfl
      · rw [containsKey, hx] at habs
        simp at habs
    simp [execute, hnone]
  · intro hpresent
    rcases hx : lookupKey "ProcessingJobName" op.config with _ | v
    · rw [containsKey, hx] at hpresent
      simp at hpresent
    · have hsome : lookupKey "ProcessingJobName" (preprocess_config op.integer_fields op.config)
          = some v := hpres.trans hx
      cases hf : hook.find_processing_job_by_name v with
      | true => exact ⟨v, [], by simp [execute, hsome, hf]⟩
      | false =>
          cases hp : lookupPath ["ResponseMetadata", "HTTPStatusCode"]
              (hook.create_processing_job (preprocess_config op.integer_fields op.config)
                op.wait_for_completion op.check_interval op.max_ingestion_time) with
          | none =>
              exact ⟨v, [Event.createJob (preprocess_config op.integer_fields op.config)],
                by simp [execute, hsome, hf, hp]⟩
          | some st =>
              cases hs : isStatus200 st with
              | true =>
                  exact ⟨v, [Event.createJob (preprocess_config op.integer_fields op.config),
                      Event.describeJob v],
                    by simp [execute, hsome, hf, hp, hs]⟩
              | false =>
                  exact ⟨v, [Event.createJob (preprocess_config op.integer_fields op.config)],
                    by simp [execute, hsome, hf, hp, hs]⟩

/-- C10 witness: a config without the key fails before any remote call; the
example config with the key reaches the existence check. -/
theorem C10_missing_name_fails_before_remote_calls_witness :
    execute opNoName hookOk = ([Event.preprocess], Except.error "KeyError: \x27ProcessingJobName\x27")
    ∧ ∃ nm tl, (execute opFail hookOk).1 = Event.preprocess :: Event.findJob nm :: tl :=
  ⟨(C10_missing_name_fails_before_remote_calls opNoName hookOk rfl).1 rfl,
    (C10_missing_name_fails_before_remote_calls opFail hookOk rfl).2 rfl⟩

/-- C1: evaluation of the code at the claim's scenario. Construction with the
increment policy succeeds and stores it, yet when the platform reports the
name as taken, execute still aborts with the duplicate-job error and issues
zero create calls — the guard ignores the stored policy, so execution does
not proceed to submission as the claim states. -/
theorem C1_increment_still_aborts :
    SageMakerProcessingOperator.init cfgW "aws_default" true true 30 none "increment"
      = Except.ok opIncrement
    ∧ execute opIncrement hookFound
      = ([Event.preprocess, Event.findJob (JValue.str "job-1")],
          Except.error "A SageMaker processing job with name job-1 already exists.")
    ∧ countCreate (execute opIncrement hookFound).1 = 0 :=
  ⟨rfl, rfl, rfl⟩

end SMP
